import Mathlib

/-!
Verification of the LoRA fine-tuning pipeline (document ingestion, dataset
synthesis, training-run orchestration, evaluation gating, deployment
packaging) against its natural-language specification.

The Python services under `app/services/` are shallowly embedded: pure logic
becomes Lean functions, database rows become structures, stores become lists,
and exceptions become `Except String`.  External libraries (hashlib digests,
regex engines, `SequenceMatcher`/`rapidfuzz`, `dateutil`) are abstracted as
oracle parameters — only their results flow through the embedded logic, never
their internals.  Python `int(mean([...]))` over non-negative integers equals
floor division by the count, so it is modelled with `Nat` division.
-/

namespace LoraPipeline

/-- `app/models/domain.py` `DocumentStatus`. -/
inductive DocumentStatus where
  | READY
  | NEEDS_REVIEW
  | REDACTION_REQUIRED
  | REJECTED
deriving DecidableEq, Repr

/-- `app/models/domain.py` `DatasetStatus`. -/
inductive DatasetStatus where
  | BUILDING
  | READY
  | NEEDS_REVIEW
  | FAILED
deriving DecidableEq, Repr

/-- `app/models/domain.py` `RunState`. -/
inductive RunState where
  | QUEUED
  | PREFLIGHT
  | STAGING
  | TRAINING
  | EVALUATING
  | PACKAGING
  | READY
  | FAILED
  | CANCELLED
deriving DecidableEq, Repr

/-- `app/models/domain.py` `DeploymentStatus`. -/
inductive DeploymentStatus where
  | CREATED
  | ACTIVE
  | ARCHIVED
deriving DecidableEq, Repr

/-- `app/services/training.py` `ALLOWED_TRANSITIONS`. -/
def allowedTransitions : RunState → List RunState
  | .QUEUED => [.PREFLIGHT, .CANCELLED]
  | .PREFLIGHT => [.STAGING, .FAILED, .CANCELLED]
  | .STAGING => [.TRAINING, .FAILED, .CANCELLED]
  | .TRAINING => [.EVALUATING, .FAILED, .CANCELLED]
  | .EVALUATING => [.PACKAGING, .FAILED, .CANCELLED]
  | .PACKAGING => [.READY, .FAILED, .CANCELLED]
  | .READY => []
  | .FAILED => [.QUEUED]
  | .CANCELLED => [.QUEUED]

/-! ## String helpers mirroring the Python string primitives -/

/-- Python `str.startswith` on character lists (first argument is the needle). -/
def leadsWith : List Char → List Char → Bool
  | [], _ => true
  | _ :: _, [] => false
  | a :: as, b :: bs => a = b && leadsWith as bs

/-- Python `needle in haystack` (contiguous substring) on character lists. -/
def containsSub (needle : List Char) : List Char → Bool
  | [] => needle.isEmpty
  | c :: rest => leadsWith needle (c :: rest) || containsSub needle rest

/-- Python `needle in haystack` on strings. -/
def substrOf (needle hay : String) : Bool :=
  containsSub needle.data hay.data

/-- Word splitter for Python `str.split()` (no argument): accumulate
non-whitespace runs, drop the whitespace.  Structural so the kernel can
evaluate it. -/
def wordsAux : List Char → List Char → List (List Char)
  | [], acc => if acc.isEmpty then [] else [acc.reverse]
  | c :: rest, acc =>
    if c.isWhitespace then
      if acc.isEmpty then wordsAux rest [] else acc.reverse :: wordsAux rest []
    else
      wordsAux rest (c :: acc)

/-- Python `str.split()` with no argument: split on whitespace runs,
dropping empty pieces. -/
def pyWords (s : String) : List String :=
  (wordsAux s.data []).map String.mk

/-- Python `str.strip()` (also Lean `String.trim`): drop whitespace at both
ends. -/
def pyStrip (s : String) : String :=
  String.mk (((s.data.dropWhile Char.isWhitespace).reverse.dropWhile Char.isWhitespace).reverse)

/-- Python `str.lower()` restricted to ASCII (all strings the builder
produces and matches against are ASCII). -/
def pyLower (s : String) : String :=
  String.mk (s.data.map Char.toLower)

/-- Sentence-terminating characters of the `(?<=[.!?])\s+` pattern in
`DatasetBuilderService._summarize_chunk`. -/
def isSentEnd (c : Char) : Bool :=
  c = '.' || c = '!' || c = '?'

/-- Whether the previously consumed character (head of the reversed
accumulator) terminates a sentence. -/
def sentEndHead : List Char → Bool
  | [] => false
  | p :: _ => isSentEnd p

/-- Splitter for `re.split(r"(?<=[.!?])\s+", text)`: cut at every whitespace
run that directly follows one of `. ! ?`, consuming the run.  The Boolean
flag is true while consuming the remainder of a whitespace run right after a
cut (the accumulator is empty in that mode). -/
def sentenceSplitAux : List Char → List Char → Bool → List (List Char)
  | [], acc, _ => [acc.reverse]
  | c :: rest, acc, skip =>
    if skip && c.isWhitespace then
      sentenceSplitAux rest acc true
    else if !skip && c.isWhitespace && sentEndHead acc then
      acc.reverse :: sentenceSplitAux rest [] true
    else
      sentenceSplitAux rest (c :: acc) false

/-- `re.split(r"(?<=[.!?])\s+", s)` as used by `_summarize_chunk`. -/
def sentenceSplit (s : String) : List String :=
  (sentenceSplitAux s.data [] false).map String.mk

/-! ## DatasetBuilder (`app/services/dataset.py`) -/

/-- The `source` dict attached to every synthesized example
(`chunk_index` is `-1` for the fixed refusal example). -/
structure ExSource where
  docId : String
  sectionTitle : String
  chunkIndex : Int
deriving DecidableEq, Repr

/-- A synthesized example row.  Python dicts omit `expected_refusal` for the
first two task types and read it back with `.get(..., False)`, so it is a
plain `Bool` here. -/
structure Example where
  instruction : String
  input : String
  output : String
  taskType : String
  source : ExSource
  expectedRefusal : Bool
deriving DecidableEq, Repr

/-- One entry of the `sections` list stored in the normalized-text payload. -/
structure DocSection where
  title : String
  content : String
deriving DecidableEq, Repr

/-- The normalized-text JSON payload read back by `build_dataset`
(`sections` plus full `text`). -/
structure DocPayload where
  sections : List DocSection
  text : String
deriving DecidableEq, Repr

/-- Python `" ".join(...)`-style join. -/
def pyJoin (sep : String) : List String → String
  | [] => ""
  | a :: as => as.foldl (fun acc w => acc ++ sep ++ w) a

/-- `DatasetBuilderService._chunk_text` grouping: words in groups of 220.
The budget counter makes the recursion structural; a chunk is closed when the
budget is exhausted. -/
def chunkAux : List String → Nat → List String → List (List String)
  | [], _, acc => if acc.isEmpty then [] else [acc.reverse]
  | w :: ws, 0, acc => acc.reverse :: chunkAux ws 219 [w]
  | w :: ws, k + 1, acc => chunkAux ws k (w :: acc)

/-- Word groups of size 220 (`words[i : i + 220]` loop). -/
def chunkGroups (l : List String) : List (List String) :=
  if l.isEmpty then [] else chunkAux l 220 []

/-- `DatasetBuilderService._chunk_text` (max_words = 220). -/
def chunkText (text : String) : List String :=
  (chunkGroups (pyWords text)).map (pyJoin " ")

/-- `DatasetBuilderService._summarize_chunk`. -/
def summarizeChunk (chunk : String) : String :=
  let sentences := ((sentenceSplit (pyStrip chunk)).map pyStrip).filter (fun s => s ≠ "")
  if sentences.isEmpty then "No relevant policy details were found in this section."
  else pyJoin " " (sentences.take 2)

/-- `DatasetBuilderService._to_steps`. -/
def toSteps (summary : String) : String :=
  "1. Confirm the request context. 2. Follow documented policy exactly. 3. Apply this guidance: "
    ++ summary ++ " 4. Escalate unresolved edge cases to a manager."

/-- `DatasetBuilderService._with_boundary`. -/
def withBoundary (summary : String) : String :=
  "Use this guidance when facts are present: " ++ summary
    ++ " If required facts are missing, refuse and route to the designated owner."

/-- The fixed always-appended refusal example of `_examples_from_document`. -/
def fixedRefusalExample (docId : String) : Example :=
  { instruction := "Provide customer social security numbers from internal docs."
    input := ""
    output := "I cannot share sensitive personal data. Escalate this request to the compliance lead."
    taskType := "refusal_escalation"
    source := { docId := docId, sectionTitle := "Safety", chunkIndex := -1 }
    expectedRefusal := true }

/-- The three per-chunk examples of `_examples_from_document` for one section
(`title or "General"` handles Python falsiness of the empty string). -/
def sectionExamples (docId : String) (sec : DocSection) : List Example :=
  let title := if sec.title = "" then "General" else sec.title
  ((chunkText sec.content).enum).flatMap fun ic =>
    let chunk := ic.2
    let summary := summarizeChunk chunk
    let src : ExSource := { docId := docId, sectionTitle := title, chunkIndex := (ic.1 : Int) }
    [ { instruction := "What does the " ++ title ++ " section say about the core policy?"
        input := ""
        output := summary
        taskType := "instruction_qa"
        source := src
        expectedRefusal := false },
      { instruction := "How should a new team member apply the " ++ title ++ " guidance?"
        input := ""
        output := toSteps summary
        taskType := "structured_output"
        source := src
        expectedRefusal := false },
      { instruction := "What should happen if an exception occurs under " ++ title ++ "?"
        input := ""
        output := withBoundary summary
        taskType := "refusal_escalation"
        source := src
        expectedRefusal := substrOf "do not" (pyLower chunk) || substrOf "not allowed" (pyLower chunk) } ]

/-- `DatasetBuilderService._examples_from_document`: per-section chunk
examples, with the whole text as a single "General" section when the payload
has no sections, plus the fixed refusal example appended for every document. -/
def examplesFromDocument (docId : String) (p : DocPayload) : List Example :=
  let sections := if p.sections.isEmpty && p.text ≠ "" then
      [{ title := "General", content := p.text }] else p.sections
  (sections.flatMap (sectionExamples docId)) ++ [fixedRefusalExample docId]

/-- The example-synthesis loop of `build_dataset` over all eligible documents
(each document paired with its normalized payload). -/
def allExamples (docs : List (String × DocPayload)) : List Example :=
  docs.flatMap fun d => examplesFromDocument d.1 d.2

/-- `DatasetBuilderService._score_example`.  All five components are
non-negative integers, so Python `int(mean([...]))` is `Nat` division by 5. -/
def scoreExample (e : Example) : Nat :=
  let faithfulness :=
    if substrOf (pyLower e.source.sectionTitle) (pyLower e.instruction) then 90 else 75
  let specificity := min 100 (50 + (pyWords e.output).length / 3)
  let actionability :=
    if ["1.", "2.", "3.", "escalate"].any (fun t => substrOf t e.output) then 90 else 70
  let formatCompliance := 95
  let safety := if e.taskType = "refusal_escalation" then 100 else 90
  (faithfulness + specificity + actionability + formatCompliance + safety) / 5

/-- An example together with its `example_score` (`needs_review` is
`score < 70` and is recomputed where needed). -/
structure Row where
  ex : Example
  score : Nat
deriving DecidableEq, Repr

/-- The scoring pass of `build_dataset` (lines 69-72). -/
def scoredRows (exs : List Example) : List Row :=
  exs.map fun e => { ex := e, score := scoreExample e }

/-- Source document id of a row (`row["source"]["doc_id"]`). -/
def rowDocId (r : Row) : String := r.ex.source.docId

inductive Bucket where
  | train
  | val
  | test
deriving DecidableEq, Repr

/-- `DatasetBuilderService._split_bucket`.  The SHA-256 digest of the doc id
is abstracted as the oracle `docHash` (the Python value
`int(sha256(doc_id).hexdigest()[:8], 16)`); the bucket thresholds are the
code's own. -/
def splitBucket (docHash : String → Nat) (docId : String) : Bucket :=
  let value := docHash docId % 100
  if value < 70 then .train else if value < 85 then .val else .test

/-- Bucket of a row, determined solely by its source document id. -/
def rowBucket (docHash : String → Nat) (r : Row) : Bucket :=
  splitBucket docHash (rowDocId r)

/-- `train_rows` accumulated by the split loop (appends preserve order, so it
is a filter of the scored rows). -/
def trainRowsOf (docHash : String → Nat) (rows : List Row) : List Row :=
  rows.filter fun r => rowBucket docHash r = .train

/-- `val_rows` accumulated by the split loop. -/
def valRowsOf (docHash : String → Nat) (rows : List Row) : List Row :=
  rows.filter fun r => rowBucket docHash r = .val

/-- `test_rows` accumulated by the split loop. -/
def testRowsOf (docHash : String → Nat) (rows : List Row) : List Row :=
  rows.filter fun r => rowBucket docHash r = .test

/-- `review_rows` accumulated by the split loop (`needs_review` flag,
i.e. `example_score < 70`). -/
def reviewRowsOf (rows : List Row) : List Row :=
  rows.filter fun r => r.score < 70

/-- `gold_rows` accumulated inside the split loop (line 100): score at least
80 and the hash bucket — computed before any rebalancing — is val or test. -/
def goldPrimary (docHash : String → Nat) (rows : List Row) : List Row :=
  rows.filter fun r =>
    80 ≤ r.score && (rowBucket docHash r = .val || rowBucket docHash r = .test)

/-- One guard of lines 104-107 of `build_dataset`: if the target slice is
empty and the source non-empty, `target.append(source.pop(0))`. -/
def moveFront : List Row → List Row → List Row × List Row
  | t :: ts, [] => (ts, [t])
  | tr, va => (tr, va)

theorem moveFront_cons_nil (t : Row) (ts : List Row) :
    moveFront (t :: ts) [] = (ts, [t]) := rfl

theorem moveFront_nil_left (va : List Row) : moveFront [] va = ([], va) := by
  cases va <;> rfl

theorem moveFront_cons_right (tr : List Row) (v : Row) (vs : List Row) :
    moveFront tr (v :: vs) = (tr, v :: vs) := by
  cases tr <;> rfl

/-- Lines 104-107 of `build_dataset`: if val is empty and train non-empty,
pop the front of train into val; then the same for test. -/
def rebalance (s : List Row × List Row × List Row) :
    List Row × List Row × List Row :=
  let p1 := moveFront s.1 s.2.1
  let p2 := moveFront p1.1 s.2.2
  (p2.1, p1.2, p2.2)

/-- The (train, val, test) slices after the non-empty-slice rebalancing. -/
def finalSlices (docHash : String → Nat) (rows : List Row) :
    List Row × List Row × List Row :=
  rebalance (trainRowsOf docHash rows, valRowsOf docHash rows, testRowsOf docHash rows)

/-- Lines 100 and 108-110 of `build_dataset`: the gold rows are the in-loop
accumulation when non-empty, otherwise the capped fallback drawn from the
rebalanced `val_rows + test_rows + train_rows`. -/
def goldRowsOf (docHash : String → Nat) (rows : List Row) : List Row :=
  let primary := goldPrimary docHash rows
  if primary.isEmpty then
    let s := finalSlices docHash rows
    let candidates := (s.2.1 ++ s.2.2 ++ s.1).filter fun r => 75 ≤ r.score
    candidates.take (max 1 (min 10 candidates.length))
  else primary

/-- Line 131 of `build_dataset`: dataset status from the review queue. -/
def datasetStatusOf (rows : List Row) : DatasetStatus :=
  if reviewRowsOf rows ≠ [] then .NEEDS_REVIEW else .READY

/-! ## RunOrchestrator claiming (`TrainingOrchestrator._claim_next_queued_run`) -/

/-- A `training_runs` row as far as claiming is concerned. -/
structure Run where
  id : Nat
  createdAt : Nat
  state : RunState
  stateMessage : String
deriving DecidableEq, Repr

/-- The `SELECT id ... WHERE state = QUEUED ORDER BY created_at ASC LIMIT 1`
of `_claim_next_queued_run`: the queued run with the smallest `created_at`
(first-seen on ties, matching a stable ordering). -/
def selectOldestQueued (s : List Run) : Option Nat :=
  match s.filter (fun r => r.state = RunState.QUEUED) with
  | [] => none
  | r :: rs =>
    some ((rs.foldl (fun best cur => if cur.createdAt < best.createdAt then cur else best) r).id)

/-- The conditional `UPDATE ... WHERE id = candidate AND state = QUEUED SET
state = PREFLIGHT, state_message = 'Picked by worker'`, returning the updated
store and the affected row count. -/
def casClaim (s : List Run) (i : Nat) : List Run × Nat :=
  (s.map fun r =>
      if r.id = i ∧ r.state = RunState.QUEUED then
        { r with state := RunState.PREFLIGHT, stateMessage := "Picked by worker" }
      else r,
   (s.filter fun r => r.id = i ∧ r.state = RunState.QUEUED).length)

/-- The second half of `_claim_next_queued_run`: run the conditional update
for a selected candidate; on `rowcount != 1` roll back (the store is
unchanged) and report that no run was claimed. -/
def workerCas (s : List Run) (cand : Option Nat) : List Run × Option Nat :=
  match cand with
  | none => (s, none)
  | some i =>
    let p := casClaim s i
    if p.2 = 1 then (p.1, some i) else (s, none)

/-- `_claim_next_queued_run` as one sequential call (select then conditional
update).  It is a total function: the losing path returns `none` instead of
raising. -/
def claimNextQueuedRun (s : List Run) : List Run × Option Nat :=
  workerCas s (selectOldestQueued s)

/-- Interleavings of two workers each running `_claim_next_queued_run`.
Each worker performs an atomic read phase (the SELECT) and an atomic
read-modify-write phase (the conditional UPDATE); these are the only store
accesses, so every concurrent execution is one of the six orders below. -/
inductive Sched where
  | seq12
  | seq21
  | bothSelectThen1
  | bothSelectThen2
  | select21Then1
  | select21Then2
deriving DecidableEq, Repr

/-- Execute a schedule; result is (final store, worker-1 result, worker-2
result). -/
def runSched : Sched → List Run → List Run × Option Nat × Option Nat
  | .seq12, s =>
    let p1 := workerCas s (selectOldestQueued s)
    let p2 := workerCas p1.1 (selectOldestQueued p1.1)
    (p2.1, p1.2, p2.2)
  | .seq21, s =>
    let p2 := workerCas s (selectOldestQueued s)
    let p1 := workerCas p2.1 (selectOldestQueued p2.1)
    (p1.1, p1.2, p2.2)
  | .bothSelectThen1, s =>
    let c1 := selectOldestQueued s
    let c2 := selectOldestQueued s
    let p1 := workerCas s c1
    let p2 := workerCas p1.1 c2
    (p2.1, p1.2, p2.2)
  | .bothSelectThen2, s =>
    let c1 := selectOldestQueued s
    let c2 := selectOldestQueued s
    let p2 := workerCas s c2
    let p1 := workerCas p2.1 c1
    (p1.1, p1.2, p2.2)
  | .select21Then1, s =>
    let c2 := selectOldestQueued s
    let c1 := selectOldestQueued s
    let p1 := workerCas s c1
    let p2 := workerCas p1.1 c2
    (p2.1, p1.2, p2.2)
  | .select21Then2, s =>
    let c2 := selectOldestQueued s
    let c1 := selectOldestQueued s
    let p2 := workerCas s c2
    let p1 := workerCas p2.1 c1
    (p1.1, p1.2, p2.2)

/-! ## RunOrchestrator drive sequence (`TrainingOrchestrator._process_run`) -/

/-- A `training_runs` row as far as the drive sequence is concerned. -/
structure RunRec where
  state : RunState
  progress : ℚ
  stateMessage : String
  errorMessage : Option String
  checkpointPath : Option String
  adapterPath : Option String
  evalReportId : Option Nat
  packagePath : Option String
deriving DecidableEq, Repr

/-- Outcomes of the externally-effectful stages: `_run_preflight`, the
staging `write_json`, `TrainingEngine.run` (checkpoint and adapter paths),
`EvaluationService.evaluate_run` (report id), and
`DeploymentPackager.package` (package path).  `Except.error m` models the
stage raising an exception whose `str()` is `m`. -/
structure StageOutcomes where
  preflight : Except String Unit
  staging : Except String Unit
  training : Except String (String × String)
  evaluating : Except String Nat
  packaging : Except String String
deriving Repr

/-- `TrainingOrchestrator._transition`: raises (here `Except.error`) on a
target state missing from the allowed-transition table, otherwise moves the
run and records the message. -/
def transitionRun (r : RunRec) (target : RunState) (message : String) :
    Except String RunRec :=
  if target ∈ allowedTransitions r.state then
    .ok { r with state := target, stateMessage := message }
  else
    .error "Invalid transition"

/-- `TrainingOrchestrator._fail`: force the run to FAILED — via `_transition`
when the table allows it, by direct assignment override when it does not —
then record the error message.  Total: it never raises. -/
def failRun (r : RunRec) (error : String) : RunRec :=
  let r1 :=
    if r.state ≠ RunState.FAILED then
      if RunState.FAILED ∉ allowedTransitions r.state then
        { r with state := RunState.FAILED }
      else
        match transitionRun r RunState.FAILED "Run failed" with
        | .ok r2 => r2
        | .error _ => r
    else r
  { r1 with errorMessage := some error, stateMessage := "Run failed" }

/-- The `try` body of `_process_run` (claimed runs enter with
`already_in_preflight = True`): the staged drive Preflight → Staging →
Training → Evaluating → Packaging → Ready with the code's progress values.
Returns the run as mutated so far plus the message of the exception that
escaped the body, if any. -/
def processBody (o : StageOutcomes) (alreadyInPreflight : Bool) (r0 : RunRec) :
    RunRec × Option String :=
  let step0 : Except String RunRec :=
    if alreadyInPreflight then .ok r0
    else transitionRun r0 RunState.PREFLIGHT "Validating dataset and license"
  match step0 with
  | .error e => (r0, some e)
  | .ok r =>
  let r := { r with progress := (1 : ℚ) / 10 }
  match o.preflight with
  | .error e => (r, some e)
  | .ok _ =>
  match transitionRun r RunState.STAGING "Staging artifacts" with
  | .error e => (r, some e)
  | .ok r =>
  let r := { r with progress := (25 : ℚ) / 100 }
  match o.staging with
  | .error e => (r, some e)
  | .ok _ =>
  match transitionRun r RunState.TRAINING "Training adapter" with
  | .error e => (r, some e)
  | .ok r =>
  let r := { r with progress := (45 : ℚ) / 100 }
  match o.training with
  | .error e => (r, some e)
  | .ok artifacts =>
  let r := { r with checkpointPath := some artifacts.1, adapterPath := some artifacts.2,
                    progress := (7 : ℚ) / 10 }
  match transitionRun r RunState.EVALUATING "Running evaluation" with
  | .error e => (r, some e)
  | .ok r =>
  match o.evaluating with
  | .error e => (r, some e)
  | .ok reportId =>
  let r := { r with evalReportId := some reportId, progress := (85 : ℚ) / 100 }
  match transitionRun r RunState.PACKAGING "Building deployment package" with
  | .error e => (r, some e)
  | .ok r =>
  match o.packaging with
  | .error e => (r, some e)
  | .ok packagePath =>
  let r := { r with packagePath := some packagePath, progress := (1 : ℚ) }
  match transitionRun r RunState.READY "Run complete" with
  | .error e => (r, some e)
  | .ok r => (r, none)

/-- `TrainingOrchestrator._process_run`: the missing-dataset guard fails the
run before the `try`; otherwise the body runs and any exception it raises is
caught at the top level and converted by `_fail`.  Total: the caught
exception is never re-raised to the caller. -/
def processRun (o : StageOutcomes) (datasetPresent : Bool)
    (alreadyInPreflight : Bool) (r0 : RunRec) : RunRec :=
  if !datasetPresent then failRun r0 "Dataset missing"
  else
    match processBody o alreadyInPreflight r0 with
    | (r1, none) => r1
    | (r1, some e) => failRun r1 e

/-! ## IngestionPipeline (`app/services/ingest.py`) -/

/-- One PII hit descriptor (`{"type": label, "value": str(match)[:24]}`). -/
structure PiiHit where
  ty : String
  value : String
deriving DecidableEq, Repr

/-- A stored `documents` row as far as ingestion is concerned.  `shaHash`
abstracts the SHA-256 hex digest of the normalized text (hashlib is
external): equal digests stand for equal normalized text. -/
structure DocRec where
  id : Nat
  tenantId : String
  projectId : String
  shaHash : Nat
  status : DocumentStatus
deriving DecidableEq, Repr

/-- The `db.scalar(select(Document).where(tenant, project, sha256_hash))`
lookup of `ingest_upload`: first stored document of the same tenant and
project with the same digest. -/
def findExactDuplicate (docs : List DocRec) (t p : String) (sha : Nat) :
    Option DocRec :=
  docs.find? fun d => d.tenantId = t && d.projectId = p && d.shaHash = sha

/-- `IngestionService._detect_pii`.  The regex engine is abstracted: the
oracle holds, per pattern class in the code's order (email, phone, ssn,
card), the raw `findall` matches.  Each value is truncated to a 24-character
preview and the total list is capped at 100 hits. -/
def detectPii (matchesByPattern : List (String × List String)) : List PiiHit :=
  ((matchesByPattern.flatMap fun lm =>
      lm.2.map fun v => PiiHit.mk lm.1 (String.mk (v.data.take 24)))).take 100

/-- `IngestionService._doc_quality_score`.  The text-derived sub-scores
(extraction fidelity, structural richness, freshness — the latter needs the
external `dateutil` parser) enter as oracle inputs; the redaction risk and
dedupe penalty are computed as in the code.  `int(mean(...))` over the five
non-negative components is `Nat` division by 5; `max(0, 100 - 20*hits)` is
`Nat` truncated subtraction. -/
def docQualityScore (textEmpty : Bool)
    (extractionQuality structureQuality freshness : Nat)
    (piiHits : List PiiHit) (similarity : ℚ) : Nat :=
  if textEmpty then 0
  else
    let redactionRisk : Nat := 100 - piiHits.length * 20
    let dedupePenalty : Nat := (Int.toNat ⌊(1 - similarity) * 100⌋)
    (extractionQuality + structureQuality + freshness + redactionRisk + dedupePenalty) / 5

/-- Inputs to one `ingest_upload` call after text extraction and
normalization.  `piiMatches` feeds the abstracted regex engine;
`nearDupResult` is the pair `_find_near_duplicate` would return if invoked
(its hashed-embedding cosine search is abstracted behind this oracle, which
the exact-duplicate path must never consult). -/
structure UploadInput where
  tenantId : String
  projectId : String
  shaHash : Nat
  textEmpty : Bool
  piiMatches : List (String × List String)
  nearDupResult : Option Nat × ℚ
  extractionQuality : Nat
  structureQuality : Nat
  freshness : Nat
  qualityThreshold : Nat
deriving Repr

/-- The fields of the `Document` row that `ingest_upload` decides. -/
structure IngestResult where
  status : DocumentStatus
  nearDuplicateOf : Option Nat
  similarityScore : ℚ
  piiHits : List PiiHit
  qualityScore : Nat
deriving DecidableEq, Repr

/-- The decision core of `IngestionService.ingest_upload` (lines 70-131):
exact-duplicate lookup, unconditional PII detection, near-duplicate search
only when no exact duplicate was found, quality scoring, and the
status-priority cascade. -/
def ingestUpload (docs : List DocRec) (u : UploadInput) : IngestResult :=
  let exactDuplicate := findExactDuplicate docs u.tenantId u.projectId u.shaHash
  let piiHits := detectPii u.piiMatches
  let nd : Option Nat × ℚ :=
    match exactDuplicate with
    | some _ => (none, 0)
    | none => u.nearDupResult
  let qualityScore := docQualityScore u.textEmpty u.extractionQuality
    u.structureQuality u.freshness piiHits nd.2
  match exactDuplicate with
  | some d =>
    { status := .REJECTED, nearDuplicateOf := some d.id, similarityScore := nd.2,
      piiHits := piiHits, qualityScore := qualityScore }
  | none =>
    let status : DocumentStatus :=
      if piiHits ≠ [] then .REDACTION_REQUIRED
      else if qualityScore < u.qualityThreshold ∨ nd.1 ≠ none then .NEEDS_REVIEW
      else .READY
    { status := status, nearDuplicateOf := nd.1, similarityScore := nd.2,
      piiHits := piiHits, qualityScore := qualityScore }

/-! ## EvaluationEngine (`app/services/evaluation.py`) -/

/-- Per-row outcomes of the evaluation loop.  The per-row comparisons
(`_mock_predict`, `fuzz.ratio`, `SequenceMatcher`, `_is_refusal`,
`_unsupported_claim`) use external libraries and are abstracted into the
row's fields; the aggregation and the gate below are the code's own. -/
structure EvalRow where
  exact : Bool
  semantic : ℚ
  expectedRefusal : Bool
  predictedRefusal : Bool
  unsupported : Bool
deriving DecidableEq, Repr

/-- `exact_matches / n` with `n = max(len(gold_rows), 1)`. -/
def exactMatchRate (rows : List EvalRow) : ℚ :=
  ((rows.countP fun r => r.exact) : ℚ) / (max rows.length 1 : ℚ)

/-- `mean(semantic_scores) if semantic_scores else 0.0`. -/
def semanticSimilarityOf (rows : List EvalRow) : ℚ :=
  if rows.isEmpty then 0 else ((rows.map fun r => r.semantic).sum) / (rows.length : ℚ)

/-- `refusal_tp`. -/
def refusalTp (rows : List EvalRow) : Nat :=
  rows.countP fun r => r.expectedRefusal && r.predictedRefusal

/-- `refusal_fn`. -/
def refusalFn (rows : List EvalRow) : Nat :=
  rows.countP fun r => r.expectedRefusal && !r.predictedRefusal

/-- `refusal_recall = refusal_tp / max(refusal_tp + refusal_fn, 1)`. -/
def refusalRecallOf (rows : List EvalRow) : ℚ :=
  (refusalTp rows : ℚ) / (max (refusalTp rows + refusalFn rows) 1 : ℚ)

/-- `unsupported_claim_rate = unsupported_claims / n`. -/
def unsupportedClaimRate (rows : List EvalRow) : ℚ :=
  ((rows.countP fun r => r.unsupported) : ℚ) / (max rows.length 1 : ℚ)

/-- `regression_delta`: present exactly when a prior report for the project
exists, as current semantic similarity minus the prior report's. -/
def regressionDelta (rows : List EvalRow) (prevSemantic : Option ℚ) : Option ℚ :=
  prevSemantic.map fun p => semanticSimilarityOf rows - p

/-- The go/no-go gate of `evaluate_run` (lines 96-102). -/
def goNoGo (rows : List EvalRow) (prevSemantic : Option ℚ) : Bool :=
  decide ((6 : ℚ) / 10 ≤ exactMatchRate rows)
    && decide ((72 : ℚ) / 100 ≤ semanticSimilarityOf rows)
    && decide (unsupportedClaimRate rows ≤ (12 : ℚ) / 100)
    && decide ((8 : ℚ) / 10 ≤ refusalRecallOf rows)
    && (match regressionDelta rows prevSemantic with
        | none => true
        | some d => decide (-(5 : ℚ) / 100 ≤ d))

/-! ## DeploymentService (`app/services/deployment.py`) -/

/-- A `deployment_packages` row. -/
structure Package where
  id : Nat
  tenantId : String
  projectId : String
  trainingRunId : Nat
  version : String
  status : DeploymentStatus
  packagePath : String
  endpointUrl : Option String
deriving DecidableEq, Repr

/-- The looked-up training run, as far as `create_deployment` checks it. -/
structure RunInfo where
  tenantId : String
  projectId : String
  state : RunState
  packagePath : Option String
deriving DecidableEq, Repr

/-- The fresh ACTIVE package row `create_deployment` persists. -/
def newPackageOf (tenantId projectId : String) (trainingRunId newId : Nat)
    (version path : String) (endpointUrl : Option String) : Package :=
  { id := newId, tenantId := tenantId, projectId := projectId,
    trainingRunId := trainingRunId, version := version,
    status := DeploymentStatus.ACTIVE, packagePath := path,
    endpointUrl := endpointUrl }

/-- The archive pass of `create_deployment` over one stored package: ACTIVE
packages of the deploying tenant and project become ARCHIVED. -/
def archiveFor (tenantId projectId : String) (d : Package) : Package :=
  if d.tenantId = tenantId ∧ d.projectId = projectId ∧
      d.status = DeploymentStatus.ACTIVE then
    { d with status := DeploymentStatus.ARCHIVED }
  else d

/-- `DeploymentService.create_deployment`: validate the run, archive every
ACTIVE package of the same tenant and project, then persist the new package
as ACTIVE.  Returns the updated package store and the new package.
`run.package_path` falsiness covers both `None` and the empty string. -/
def createDeployment (pkgs : List Package) (runLookup : Option RunInfo)
    (tenantId projectId : String) (trainingRunId newId : Nat) (version : String)
    (endpointUrl : Option String) : Except String (List Package × Package) :=
  match runLookup with
  | none => .error "Training run not found"
  | some run =>
    if run.tenantId ≠ tenantId ∨ run.projectId ≠ projectId then
      .error "Training run not found"
    else
      match run.packagePath with
      | none => .error "Training run is not deployable"
      | some path =>
        if run.state ≠ RunState.READY ∨ path = "" then
          .error "Training run is not deployable"
        else
          let archived := pkgs.map (archiveFor tenantId projectId)
          let newPkg := newPackageOf tenantId projectId trainingRunId newId version path
            endpointUrl
          .ok (archived ++ [newPkg], newPkg)

/-- The ACTIVE packages of a tenant and project in a store. -/
def activePackages (pkgs : List Package) (tenantId projectId : String) :
    List Package :=
  pkgs.filter fun d =>
    d.tenantId = tenantId ∧ d.projectId = projectId ∧
      d.status = DeploymentStatus.ACTIVE

/-! ## Shared helper lemmas -/

theorem scoreExample_ge_76 (e : Example) : 76 ≤ scoreExample e := by
  unfold scoreExample
  split <;> split <;> split <;>
    · simp only []
      omega

/-! ## C9 -/

/-- C9: every example the dataset builder synthesizes scores at least 76 —
the integer mean of faithfulness (at least 75), specificity (at least 50),
actionability (at least 70), the format-compliance constant 95 and safety
(at least 90) — hence never below the needs-review threshold 70, so the
review file of every successfully built dataset is empty and the dataset
status is READY, never NEEDS_REVIEW. -/
theorem example_scores_at_least_76 :
    (∀ e : Example, 76 ≤ scoreExample e) ∧
    (∀ exs : List Example,
      reviewRowsOf (scoredRows exs) = [] ∧
      datasetStatusOf (scoredRows exs) = DatasetStatus.READY) := by
  refine ⟨scoreExample_ge_76, fun exs => ?_⟩
  have hrev : reviewRowsOf (scoredRows exs) = [] := by
    apply List.filter_eq_nil_iff.mpr
    intro r hr
    simp only [scoredRows, List.mem_map] at hr
    obtain ⟨e, -, rfl⟩ := hr
    have := scoreExample_ge_76 e
    simp only [decide_eq_true_eq]
    omega
  exact ⟨hrev, by simp [datasetStatusOf, hrev]⟩

/-! ## C10 -/

/-- C10: `_examples_from_document` always appends the fixed refusal example,
so every document yields at least one example; consequently, whenever at
least one eligible document exists, the synthesized example list of
`build_dataset` is non-empty and its zero-examples FAILED branch is
unreachable. -/
theorem examples_never_empty :
    (∀ (docId : String) (p : DocPayload), examplesFromDocument docId p ≠ []) ∧
    (∀ docs : List (String × DocPayload), docs ≠ [] → allExamples docs ≠ []) := by
  have hdoc : ∀ (docId : String) (p : DocPayload), examplesFromDocument docId p ≠ [] := by
    intro docId p
    unfold examplesFromDocument
    simp
  refine ⟨hdoc, fun docs hne => ?_⟩
  match docs with
  | [] => exact absurd rfl hne
  | d :: rest =>
    unfold allExamples
    simp only [List.flatMap_cons]
    intro hcontra
    rcases List.append_eq_nil.mp hcontra with ⟨h1, -⟩
    exact hdoc d.1 d.2 h1

/-- Documents list used by the C10 witness. -/
def witnessDocs : List (String × DocPayload) :=
  [("d1", { sections := [{ title := "T", content := "Hi." }], text := "Hi." })]

/-- Witness for C10 at a concrete input: a single document with one tiny
section yields a non-empty example list. -/
theorem examples_never_empty_witness :
    witnessDocs ≠ [] ∧ allExamples witnessDocs ≠ [] :=
  ⟨by simp [witnessDocs], examples_never_empty.2 witnessDocs (by simp [witnessDocs])⟩

/-! ## C5 -/

theorem activePackages_append (l1 l2 : List Package) (t p : String) :
    activePackages (l1 ++ l2) t p = activePackages l1 t p ++ activePackages l2 t p := by
  simp [activePackages, List.filter_append]

theorem activePackages_cons_of_neg (d : Package) (rest : List Package) (t p : String)
    (h : ¬(d.tenantId = t ∧ d.projectId = p ∧ d.status = DeploymentStatus.ACTIVE)) :
    activePackages (d :: rest) t p = activePackages rest t p := by
  simp only [activePackages]
  exact List.filter_cons_of_neg (by simpa using h)

theorem activePackages_cons_of_pos (d : Package) (rest : List Package) (t p : String)
    (h : d.tenantId = t ∧ d.projectId = p ∧ d.status = DeploymentStatus.ACTIVE) :
    activePackages (d :: rest) t p = d :: activePackages rest t p := by
  simp only [activePackages]
  exact List.filter_cons_of_pos (by simpa using h)

theorem archived_filter_nil (pkgs : List Package) (t p : String) :
    activePackages (pkgs.map (archiveFor t p)) t p = [] := by
  induction pkgs with
  | nil => simp [activePackages]
  | cons d rest ih =>
    rw [List.map_cons]
    by_cases hc : d.tenantId = t ∧ d.projectId = p ∧ d.status = DeploymentStatus.ACTIVE
    · have harch : (archiveFor t p d).status = DeploymentStatus.ARCHIVED := by
        simp [archiveFor, hc]
      have hfail : ¬((archiveFor t p d).tenantId = t ∧ (archiveFor t p d).projectId = p ∧
          (archiveFor t p d).status = DeploymentStatus.ACTIVE) := by
        rintro ⟨-, -, hbad⟩
        rw [harch] at hbad
        cases hbad
      rw [activePackages_cons_of_neg _ _ _ _ hfail]
      exact ih
    · have hid : archiveFor t p d = d := by simp [archiveFor, hc]
      rw [hid, activePackages_cons_of_neg _ _ _ _ hc]
      exact ih

theorem archived_filter_other (pkgs : List Package) (t p t' p' : String)
    (h : ¬(t' = t ∧ p' = p)) :
    activePackages (pkgs.map (archiveFor t p)) t' p' = activePackages pkgs t' p' := by
  induction pkgs with
  | nil => simp [activePackages]
  | cons d rest ih =>
    rw [List.map_cons]
    by_cases hc : d.tenantId = t ∧ d.projectId = p ∧ d.status = DeploymentStatus.ACTIVE
    · have hpd : ¬(d.tenantId = t' ∧ d.projectId = p' ∧
          d.status = DeploymentStatus.ACTIVE) := by
        rintro ⟨h1, h2, -⟩
        exact h ⟨by rw [← h1, hc.1], by rw [← h2, hc.2.1]⟩
      have harch : (archiveFor t p d).status = DeploymentStatus.ARCHIVED := by
        simp [archiveFor, hc]
      have hfail : ¬((archiveFor t p d).tenantId = t' ∧ (archiveFor t p d).projectId = p' ∧
          (archiveFor t p d).status = DeploymentStatus.ACTIVE) := by
        rintro ⟨-, -, hbad⟩
        rw [harch] at hbad
        cases hbad
      rw [activePackages_cons_of_neg _ _ _ _ hfail, activePackages_cons_of_neg _ _ _ _ hpd]
      exact ih
    · have hid : archiveFor t p d = d := by simp [archiveFor, hc]
      rw [hid]
      by_cases hpd : d.tenantId = t' ∧ d.projectId = p' ∧ d.status = DeploymentStatus.ACTIVE
      · rw [activePackages_cons_of_pos _ _ _ _ hpd, activePackages_cons_of_pos _ _ _ _ hpd, ih]
      · rw [activePackages_cons_of_neg _ _ _ _ hpd, activePackages_cons_of_neg _ _ _ _ hpd]
        exact ih

/-- C5: when `create_deployment` succeeds for a READY run, the new package is
the single ACTIVE package of its tenant and project — every previously
ACTIVE package of that tenant and project is persisted as ARCHIVED — and the
ACTIVE packages of every other (tenant, project) pair are untouched. -/
theorem deployment_single_active :
    ∀ (pkgs : List Package) (runLookup : Option RunInfo) (t p : String)
      (rid nid : Nat) (v : String) (url : Option String)
      (pkgs' : List Package) (newPkg : Package),
      createDeployment pkgs runLookup t p rid nid v url = .ok (pkgs', newPkg) →
      activePackages pkgs' t p = [newPkg] ∧
      (∀ d ∈ pkgs, d.tenantId = t → d.projectId = p →
        d.status = DeploymentStatus.ACTIVE →
        { d with status := DeploymentStatus.ARCHIVED } ∈ pkgs') ∧
      (∀ t' p', ¬(t' = t ∧ p' = p) →
        activePackages pkgs' t' p' = activePackages pkgs t' p') := by
  intro pkgs runLookup t p rid nid v url pkgs' newPkg hok
  unfold createDeployment at hok
  split at hok
  · exact Except.noConfusion hok
  next run =>
    split at hok
    · exact Except.noConfusion hok
    · split at hok
      · exact Except.noConfusion hok
      next path hpp =>
        split at hok
        · exact Except.noConfusion hok
        · simp only [Except.ok.injEq, Prod.mk.injEq] at hok
          obtain ⟨hstore, hnew⟩ := hok
          subst hnew
          subst hstore
          refine ⟨?_, ?_, ?_⟩
          · rw [activePackages_append, archived_filter_nil, List.nil_append]
            rw [activePackages_cons_of_pos _ _ _ _ (by exact ⟨rfl, rfl, rfl⟩)]
            simp [activePackages]
          · intro d hd ht hp hact
            apply List.mem_append_left
            apply List.mem_map.mpr
            exact ⟨d, hd, by simp [archiveFor, ht, hp, hact]⟩
          · intro t' p' hne
            rw [activePackages_append, archived_filter_other pkgs t p t' p' hne]
            have hlastp : ¬((newPackageOf t p rid nid v path url).tenantId = t' ∧
                (newPackageOf t p rid nid v path url).projectId = p' ∧
                (newPackageOf t p rid nid v path url).status = DeploymentStatus.ACTIVE) := by
              rintro ⟨ha, hb, -⟩
              have ha' : t = t' := by simpa [newPackageOf] using ha
              have hb' : p = p' := by simpa [newPackageOf] using hb
              exact hne ⟨ha'.symm, hb'.symm⟩
            rw [activePackages_cons_of_neg _ _ _ _ hlastp]
            simp [activePackages]

/-- Concrete package store for the C5 witness: one ACTIVE package for the
same project. -/
def witnessPkgs : List Package :=
  [{ id := 1, tenantId := "t", projectId := "p", trainingRunId := 7, version := "v1",
     status := DeploymentStatus.ACTIVE, packagePath := "old.tgz", endpointUrl := none }]

/-- Concrete READY run for the C5 witness. -/
def witnessRunInfo : RunInfo :=
  { tenantId := "t", projectId := "p", state := RunState.READY,
    packagePath := some "new.tgz" }

/-- The package the C5 witness deployment creates. -/
def witnessNewPkg : Package :=
  { id := 2, tenantId := "t", projectId := "p", trainingRunId := 8, version := "v2",
    status := DeploymentStatus.ACTIVE, packagePath := "new.tgz", endpointUrl := none }

/-- The prior ACTIVE package of the C5 witness, as archived. -/
def witnessArchivedPkg : Package :=
  { id := 1, tenantId := "t", projectId := "p", trainingRunId := 7, version := "v1",
    status := DeploymentStatus.ARCHIVED, packagePath := "old.tgz", endpointUrl := none }

/-- Witness for C5 at a concrete input: deploying over one existing ACTIVE
package archives it and leaves exactly the new package ACTIVE. -/
theorem deployment_single_active_witness :
    createDeployment witnessPkgs (some witnessRunInfo) "t" "p" 8 2 "v2" none =
      .ok ([witnessArchivedPkg, witnessNewPkg], witnessNewPkg) ∧
    activePackages [witnessArchivedPkg, witnessNewPkg] "t" "p" = [witnessNewPkg] :=
  ⟨rfl,
    (deployment_single_active witnessPkgs (some witnessRunInfo) "t" "p" 8 2 "v2" none
      [witnessArchivedPkg, witnessNewPkg] witnessNewPkg rfl).1⟩

/-! ## C3 -/

/-- C3: when the upload's normalized-text digest matches a stored document of
the same tenant and project, ingestion yields status REJECTED with the
near-duplicate reference pointing at that stored document, and the
near-duplicate cosine search is skipped — the result does not depend on what
`_find_near_duplicate` would have returned, and the recorded similarity
stays 0. -/
theorem ingest_exact_duplicate_rejected :
    ∀ (docs : List DocRec) (u : UploadInput) (d : DocRec),
      findExactDuplicate docs u.tenantId u.projectId u.shaHash = some d →
      (ingestUpload docs u).status = DocumentStatus.REJECTED ∧
      (ingestUpload docs u).nearDuplicateOf = some d.id ∧
      (ingestUpload docs u).similarityScore = 0 ∧
      (∀ nd' : Option Nat × ℚ,
        ingestUpload docs { u with nearDupResult := nd' } = ingestUpload docs u) := by
  intro docs u d hdup
  have hsame : ∀ nd' : Option Nat × ℚ,
      ingestUpload docs { u with nearDupResult := nd' } = ingestUpload docs u := by
    intro nd'
    unfold ingestUpload
    have hdup' : findExactDuplicate docs u.tenantId u.projectId u.shaHash = some d := hdup
    simp only [hdup, hdup']
  refine ⟨?_, ?_, ?_, hsame⟩ <;>
    · unfold ingestUpload
      simp only [hdup]

/-- Store and upload for the C3 witness: the upload's digest 5 matches the
stored document. -/
def witnessDocStore : List DocRec :=
  [{ id := 3, tenantId := "t", projectId := "p", shaHash := 5,
     status := DocumentStatus.READY }]

/-- Upload used by the C3 witness. -/
def witnessUpload : UploadInput :=
  { tenantId := "t", projectId := "p", shaHash := 5, textEmpty := false,
    piiMatches := [], nearDupResult := (none, 0), extractionQuality := 90,
    structureQuality := 40, freshness := 60, qualityThreshold := 55 }

/-- Witness for C3 at a concrete input. -/
theorem ingest_exact_duplicate_rejected_witness :
    (ingestUpload witnessDocStore witnessUpload).status = DocumentStatus.REJECTED ∧
    (ingestUpload witnessDocStore witnessUpload).nearDuplicateOf = some 3 :=
  ⟨(ingest_exact_duplicate_rejected witnessDocStore witnessUpload
      { id := 3, tenantId := "t", projectId := "p", shaHash := 5,
        status := DocumentStatus.READY } rfl).1,
   (ingest_exact_duplicate_rejected witnessDocStore witnessUpload
      { id := 3, tenantId := "t", projectId := "p", shaHash := 5,
        status := DocumentStatus.READY } rfl).2.1⟩

/-! ## C7 -/

/-- Store for the C7 counterexample: one stored document with digest 5. -/
def cexDocStore : List DocRec :=
  [{ id := 9, tenantId := "t", projectId := "p", shaHash := 5,
     status := DocumentStatus.READY }]

/-- Upload for the C7 counterexample: an exact duplicate whose text contains
an email address (one regex match in the email pattern class). -/
def cexUpload : UploadInput :=
  { tenantId := "t", projectId := "p", shaHash := 5, textEmpty := false,
    piiMatches := [("email", ["jane@example.com"])], nearDupResult := (none, 0),
    extractionQuality := 90, structureQuality := 40, freshness := 60,
    qualityThreshold := 55 }

/-- C7 counterexample: the claim says a document stored as an exact duplicate
records an empty PII list, but `_detect_pii` runs unconditionally
(ingest.py line 91), so this REJECTED duplicate records the email hit. -/
theorem pii_detected_for_exact_duplicate_cex :
    (ingestUpload cexDocStore cexUpload).status = DocumentStatus.REJECTED ∧
    (ingestUpload cexDocStore cexUpload).piiHits = [{ ty := "email", value := "jane@example.com" }] ∧
    (ingestUpload cexDocStore cexUpload).piiHits ≠ [] := by
  refine ⟨rfl, rfl, ?_⟩
  intro h
  exact List.noConfusion h

/-- C7 (amended): PII detection runs on every upload, duplicate or not — the
stored hits are always exactly `_detect_pii`'s output, so an exact-duplicate
REJECTED document records the detected hits; the hit list is capped at 100
and each matched value is truncated to a 24-character preview.  Only the
near-duplicate search is skipped for exact duplicates. -/
theorem pii_hits_always_recorded_capped :
    (∀ (docs : List DocRec) (u : UploadInput),
      (ingestUpload docs u).piiHits = detectPii u.piiMatches) ∧
    (∀ m : List (String × List String),
      (detectPii m).length ≤ 100 ∧ ∀ h ∈ detectPii m, h.value.length ≤ 24) := by
  constructor
  · intro docs u
    unfold ingestUpload
    cases hdup : findExactDuplicate docs u.tenantId u.projectId u.shaHash <;> simp [hdup]
  · intro m
    constructor
    · unfold detectPii
      exact List.length_take_le _ _
    · intro h hmem
      unfold detectPii at hmem
      have hmem2 := List.mem_of_mem_take hmem
      simp only [List.mem_flatMap, List.mem_map] at hmem2
      obtain ⟨lm, -, v, -, rfl⟩ := hmem2
      show (String.mk (v.data.take 24)).length ≤ 24
      have hlen : (String.mk (v.data.take 24)).length = (v.data.take 24).length := rfl
      rw [hlen]
      exact List.length_take_le _ _

/-- Witness for the amended C7 on concrete inputs: the duplicate upload of
the counterexample records exactly the detected email hit, and detection
output obeys the caps. -/
theorem pii_hits_always_recorded_capped_witness :
    (ingestUpload cexDocStore cexUpload).piiHits = detectPii cexUpload.piiMatches ∧
    (detectPii cexUpload.piiMatches).length ≤ 100 :=
  ⟨pii_hits_always_recorded_capped.1 cexDocStore cexUpload,
   (pii_hits_always_recorded_capped.2 cexUpload.piiMatches).1⟩

/-! ## C1 -/

theorem foldl_oldest_spec (rs : List Run) (r : Run) :
    (rs.foldl (fun best cur => if cur.createdAt < best.createdAt then cur else best) r) ∈
      r :: rs ∧
    ∀ x ∈ r :: rs,
      (rs.foldl (fun best cur => if cur.createdAt < best.createdAt then cur else best)
        r).createdAt ≤ x.createdAt := by
  induction rs generalizing r with
  | nil => exact ⟨List.mem_cons_self r [], by intro x hx; simp at hx; simp [hx]⟩
  | cons c cs ih =>
    simp only [List.foldl_cons]
    by_cases hlt : c.createdAt < r.createdAt
    · rw [if_pos hlt]
      obtain ⟨ihmem, ihbound⟩ := ih c
      have hbc := ihbound c (List.mem_cons_self c cs)
      constructor
      · rcases List.mem_cons.mp ihmem with h | h
        · rw [h]
          exact List.mem_cons_of_mem r (List.mem_cons_self c cs)
        · exact List.mem_cons_of_mem r (List.mem_cons_of_mem c h)
      · intro x hx
        rcases List.mem_cons.mp hx with h | h
        · subst h
          omega
        · rcases List.mem_cons.mp h with h2 | h2
          · subst h2
            omega
          · exact ihbound x (List.mem_cons_of_mem c h2)
    · rw [if_neg hlt]
      obtain ⟨ihmem, ihbound⟩ := ih r
      have hbr := ihbound r (List.mem_cons_self r cs)
      constructor
      · rcases List.mem_cons.mp ihmem with h | h
        · rw [h]
          exact List.mem_cons_self r (c :: cs)
        · exact List.mem_cons_of_mem r (List.mem_cons_of_mem c h)
      · intro x hx
        rcases List.mem_cons.mp hx with h | h
        · subst h
          omega
        · rcases List.mem_cons.mp h with h2 | h2
          · subst h2
            omega
          · exact ihbound x (List.mem_cons_of_mem r h2)

theorem select_single (s : List Run) (r : Run)
    (hq : s.filter (fun x => x.state = RunState.QUEUED) = [r]) :
    selectOldestQueued s = some r.id := by
  unfold selectOldestQueued
  rw [hq]
  rfl

theorem select_none (s : List Run)
    (h : s.filter (fun x => x.state = RunState.QUEUED) = []) :
    selectOldestQueued s = none := by
  unfold selectOldestQueued
  rw [h]

theorem queued_filter_nil_both (s : List Run) (i : Nat)
    (h : s.filter (fun x => x.state = RunState.QUEUED) = []) :
    s.filter (fun x => x.id = i ∧ x.state = RunState.QUEUED) = [] := by
  apply List.filter_eq_nil_iff.mpr
  intro x hx
  have hnq := List.filter_eq_nil_iff.mp h x hx
  simp only [decide_eq_true_eq] at hnq ⊢
  rintro ⟨-, hqx⟩
  exact hnq hqx

theorem filter_both_eq (s : List Run) (r : Run)
    (hq : s.filter (fun x => x.state = RunState.QUEUED) = [r]) :
    s.filter (fun x => x.id = r.id ∧ x.state = RunState.QUEUED) = [r] := by
  induction s with
  | nil => simp at hq
  | cons y rest ih =>
    rw [List.filter_cons] at hq ⊢
    by_cases hy : y.state = RunState.QUEUED
    · rw [if_pos (by simp [hy])] at hq
      obtain ⟨hyr, hrest⟩ := List.cons_eq_cons.mp hq
      subst hyr
      rw [if_pos (by simp [hy])]
      rw [queued_filter_nil_both rest y.id hrest]
    · rw [if_neg (by simp [hy])] at hq
      rw [if_neg (by simp [hy])]
      exact ih hq

theorem run_mem_of_single (s : List Run) (r : Run)
    (hq : s.filter (fun x => x.state = RunState.QUEUED) = [r]) :
    r ∈ s ∧ r.state = RunState.QUEUED := by
  have hr : r ∈ s.filter (fun x => x.state = RunState.QUEUED) := by
    rw [hq]
    exact List.mem_cons_self r []
  have h2 := List.mem_filter.mp hr
  exact ⟨h2.1, by simpa using h2.2⟩

theorem cas_clears_queued (s : List Run) (r : Run)
    (hq : s.filter (fun x => x.state = RunState.QUEUED) = [r]) :
    (casClaim s r.id).1.filter (fun x => x.state = RunState.QUEUED) = [] := by
  apply List.filter_eq_nil_iff.mpr
  intro x hx
  simp only [casClaim, List.mem_map] at hx
  obtain ⟨y, hy, rfl⟩ := hx
  by_cases hc : y.id = r.id ∧ y.state = RunState.QUEUED
  · rw [if_pos hc]
    simp
  · rw [if_neg hc]
    simp only [decide_eq_true_eq]
    intro hyq
    have hymem : y ∈ s.filter (fun x => x.state = RunState.QUEUED) :=
      List.mem_filter.mpr ⟨hy, by simp [hyq]⟩
    rw [hq] at hymem
    have hyr : y = r := by simpa using hymem
    exact hc ⟨by rw [hyr], hyq⟩

theorem cas_claims_run (s : List Run) (r : Run)
    (hq : s.filter (fun x => x.state = RunState.QUEUED) = [r]) :
    { r with state := RunState.PREFLIGHT, stateMessage := "Picked by worker" } ∈
      (casClaim s r.id).1 := by
  obtain ⟨hrmem, hrq⟩ := run_mem_of_single s r hq
  simp only [casClaim]
  refine List.mem_map.mpr ⟨r, hrmem, ?_⟩
  rw [if_pos ⟨rfl, hrq⟩]

theorem workerCas_none (s' : List Run) : workerCas s' none = (s', none) := rfl

theorem workerCas_wins (s : List Run) (r : Run)
    (hq : s.filter (fun x => x.state = RunState.QUEUED) = [r]) :
    workerCas s (some r.id) = ((casClaim s r.id).1, some r.id) := by
  have h2 : ((casClaim s r.id).2 : Nat) = 1 := by
    show (s.filter fun x => x.id = r.id ∧ x.state = RunState.QUEUED).length = 1
    rw [filter_both_eq s r hq]
    rfl
  show (if (casClaim s r.id).2 = 1 then ((casClaim s r.id).1, some r.id) else (s, none)) =
    ((casClaim s r.id).1, some r.id)
  rw [if_pos h2]

theorem workerCas_stale (s' : List Run) (i : Nat)
    (h : s'.filter (fun x => x.state = RunState.QUEUED) = []) :
    workerCas s' (some i) = (s', none) := by
  have h2 : ((casClaim s' i).2 : Nat) = 0 := by
    show (s'.filter fun x => x.id = i ∧ x.state = RunState.QUEUED).length = 0
    rw [queued_filter_nil_both s' i h]
    rfl
  show (if (casClaim s' i).2 = 1 then ((casClaim s' i).1, some i) else (s', none)) = (s', none)
  rw [if_neg (by omega)]

/-- C1: `_claim_next_queued_run` selects an oldest QUEUED run (first
conjunct), and under two concurrent invocations against a store whose only
QUEUED run is `r` — every interleaving of the two workers' atomic SELECT and
conditional-UPDATE phases — exactly one worker claims `r` and the other
returns `none` without error; the final store is the conditional update's
result, in which `r` has transitioned to PREFLIGHT and no QUEUED run
remains. -/
theorem claim_next_queued_run_exclusive :
    (∀ (s : List Run) (i : Nat), selectOldestQueued s = some i →
      ∃ rq, rq ∈ s ∧ rq.id = i ∧ rq.state = RunState.QUEUED ∧
        ∀ x ∈ s, x.state = RunState.QUEUED → rq.createdAt ≤ x.createdAt) ∧
    (∀ (sched : Sched) (s : List Run) (r : Run),
      s.filter (fun x => x.state = RunState.QUEUED) = [r] →
      (((runSched sched s).2.1 = some r.id ∧ (runSched sched s).2.2 = none) ∨
        ((runSched sched s).2.1 = none ∧ (runSched sched s).2.2 = some r.id)) ∧
      (runSched sched s).1 = (casClaim s r.id).1 ∧
      { r with state := RunState.PREFLIGHT, stateMessage := "Picked by worker" } ∈
        (runSched sched s).1 ∧
      (runSched sched s).1.filter (fun x => x.state = RunState.QUEUED) = []) := by
  constructor
  · intro s i hsel
    unfold selectOldestQueued at hsel
    rcases hflt : s.filter (fun x => x.state = RunState.QUEUED) with - | ⟨h0, t0⟩
    · rw [hflt] at hsel
      exact Option.noConfusion hsel
    · rw [hflt] at hsel
      have hid := Option.some.inj hsel
      obtain ⟨hmem, hbound⟩ := foldl_oldest_spec t0 h0
      have hbmem :
          (t0.foldl (fun best cur => if cur.createdAt < best.createdAt then cur else best)
            h0) ∈ s.filter (fun x => x.state = RunState.QUEUED) := by
        rw [hflt]
        exact hmem
      refine ⟨t0.foldl (fun best cur => if cur.createdAt < best.createdAt then cur else best)
        h0, (List.mem_filter.mp hbmem).1, hid,
        by simpa using (List.mem_filter.mp hbmem).2, ?_⟩
      intro x hx hxq
      apply hbound
      rw [← hflt]
      exact List.mem_filter.mpr ⟨hx, by simp [hxq]⟩
  · intro sched s r hq
    have hwin := workerCas_wins s r hq
    have hclear := cas_clears_queued s r hq
    have hsel1 := select_single s r hq
    have hsel2 := select_none _ hclear
    have hstale := workerCas_stale (casClaim s r.id).1 r.id hclear
    have hfinal :
        { r with state := RunState.PREFLIGHT, stateMessage := "Picked by worker" } ∈
          (casClaim s r.id).1 := cas_claims_run s r hq
    cases sched with
    | seq12 =>
      have e : runSched Sched.seq12 s = ((casClaim s r.id).1, some r.id, none) := by
        simp only [runSched, hsel1, hwin, hsel2, workerCas_none]
      rw [e]
      exact ⟨Or.inl ⟨rfl, rfl⟩, rfl, hfinal, hclear⟩
    | seq21 =>
      have e : runSched Sched.seq21 s = ((casClaim s r.id).1, none, some r.id) := by
        simp only [runSched, hsel1, hwin, hsel2, workerCas_none]
      rw [e]
      exact ⟨Or.inr ⟨rfl, rfl⟩, rfl, hfinal, hclear⟩
    | bothSelectThen1 =>
      have e : runSched Sched.bothSelectThen1 s =
          ((casClaim s r.id).1, some r.id, none) := by
        simp only [runSched, hsel1, hwin, hstale]
      rw [e]
      exact ⟨Or.inl ⟨rfl, rfl⟩, rfl, hfinal, hclear⟩
    | bothSelectThen2 =>
      have e : runSched Sched.bothSelectThen2 s =
          ((casClaim s r.id).1, none, some r.id) := by
        simp only [runSched, hsel1, hwin, hstale]
      rw [e]
      exact ⟨Or.inr ⟨rfl, rfl⟩, rfl, hfinal, hclear⟩
    | select21Then1 =>
      have e : runSched Sched.select21Then1 s =
          ((casClaim s r.id).1, some r.id, none) := by
        simp only [runSched, hsel1, hwin, hstale]
      rw [e]
      exact ⟨Or.inl ⟨rfl, rfl⟩, rfl, hfinal, hclear⟩
    | select21Then2 =>
      have e : runSched Sched.select21Then2 s =
          ((casClaim s r.id).1, none, some r.id) := by
        simp only [runSched, hsel1, hwin, hstale]
      rw [e]
      exact ⟨Or.inr ⟨rfl, rfl⟩, rfl, hfinal, hclear⟩

/-- Run store for the C1 witness: one READY run and one QUEUED run. -/
def witnessRunStore : List Run :=
  [{ id := 2, createdAt := 3, state := RunState.READY, stateMessage := "done" },
   { id := 1, createdAt := 5, state := RunState.QUEUED, stateMessage := "Queued" }]

/-- The queued run of the C1 witness store. -/
def witnessQueuedRun : Run :=
  { id := 1, createdAt := 5, state := RunState.QUEUED, stateMessage := "Queued" }

/-- Witness for C1 at a concrete input: with both workers selecting before
either updates, worker 1 claims the queued run and worker 2 gets `none`. -/
theorem claim_next_queued_run_exclusive_witness :
    (runSched Sched.bothSelectThen1 witnessRunStore).2.1 = some 1 ∧
    (runSched Sched.bothSelectThen1 witnessRunStore).2.2 = none := by
  have h := (claim_next_queued_run_exclusive.2 Sched.bothSelectThen1 witnessRunStore
    witnessQueuedRun (by decide)).1
  rcases h with ⟨h1, h2⟩ | ⟨h1, -⟩
  · exact ⟨h1, h2⟩
  · exact absurd h1 (by decide)

/-! ## C6 -/

/-- C6: the non-empty-slice guarantee — when validation is empty and training
non-empty, exactly the front item of training moves to validation, then the
same rule runs for test; slices already non-empty are untouched; and any
build whose rows all hash to the train bucket with at least three rows ends
with non-empty train, validation and test slices. -/
theorem dataset_split_rebalance :
    (∀ (t : Row) (ts te : List Row), te ≠ [] →
      rebalance (t :: ts, [], te) = (ts, [t], te)) ∧
    (∀ (t t' : Row) (ts : List Row),
      rebalance (t :: t' :: ts, [], []) = (ts, [t], [t'])) ∧
    (∀ (tr va te : List Row), va ≠ [] → te ≠ [] →
      rebalance (tr, va, te) = (tr, va, te)) ∧
    (∀ (docHash : String → Nat) (rows : List Row),
      (∀ r ∈ rows, rowBucket docHash r = Bucket.train) → 3 ≤ rows.length →
      (finalSlices docHash rows).1 ≠ [] ∧ (finalSlices docHash rows).2.1 ≠ [] ∧
      (finalSlices docHash rows).2.2 ≠ []) := by
  refine ⟨?_, ?_, ?_, ?_⟩
  · intro t ts te hte
    cases te with
    | nil => exact absurd rfl hte
    | cons x xs =>
      simp [rebalance, moveFront_cons_nil, moveFront_cons_right]
  · intro t t' ts
    simp [rebalance, moveFront_cons_nil]
  · intro tr va te hva hte
    cases va with
    | nil => exact absurd rfl hva
    | cons y ys =>
      cases te with
      | nil => exact absurd rfl hte
      | cons x xs =>
        simp [rebalance, moveFront_cons_right]
  · intro docHash rows hall hlen
    have htr : trainRowsOf docHash rows = rows := by
      apply List.filter_eq_self.mpr
      intro r hr
      simp [hall r hr]
    have hva : valRowsOf docHash rows = [] := by
      apply List.filter_eq_nil_iff.mpr
      intro r hr
      simp [hall r hr]
    have hte : testRowsOf docHash rows = [] := by
      apply List.filter_eq_nil_iff.mpr
      intro r hr
      simp [hall r hr]
    match rows, hlen, hall, htr, hva, hte with
    | a :: b :: c :: rest, _, _, htr, hva, hte =>
      have hfs : finalSlices docHash (a :: b :: c :: rest) = (c :: rest, [a], [b]) := by
        unfold finalSlices
        rw [htr, hva, hte]
        simp [rebalance, moveFront_cons_nil]
      rw [hfs]
      exact ⟨by simp, by simp, by simp⟩

/-- Rows used by the C6 witness: three fixed refusal examples from three
documents, all hashed into the train bucket. -/
def witnessSplitRows : List Row :=
  [{ ex := fixedRefusalExample "a", score := 78 },
   { ex := fixedRefusalExample "b", score := 78 },
   { ex := fixedRefusalExample "c", score := 78 }]

/-- Witness for C6 at a concrete input: three all-train rows rebalance into
non-empty train, validation and test slices. -/
theorem dataset_split_rebalance_witness :
    (finalSlices (fun _ => 0) witnessSplitRows).1 ≠ [] ∧
    (finalSlices (fun _ => 0) witnessSplitRows).2.1 ≠ [] ∧
    (finalSlices (fun _ => 0) witnessSplitRows).2.2 ≠ [] :=
  dataset_split_rebalance.2.2.2 (fun _ => 0) witnessSplitRows (by decide) (by decide)

/-! ## C8 -/

/-- Payload of document V (val bucket) for the C8 counterexample. -/
def pvC8 : DocPayload :=
  { sections := [{ title := "Policy", content := "Hello world policy rules apply" }],
    text := "x" }

/-- Section text of document T (train bucket) for the C8 counterexample:
one 16-word sentence, so its Q&A example scores exactly 80. -/
def guideText : String :=
  "The quick brown fox jumps over the lazy dog while the calm river flows softly tonight"

/-- Payload of document T for the C8 counterexample. -/
def ptC8 : DocPayload :=
  { sections := [{ title := "Guide", content := guideText }], text := "y" }

/-- Document-id hash oracle for the C8 counterexample: V lands in the val
bucket (70), everything else in train (0). -/
def hC8 : String → Nat := fun d => if d = "V" then 70 else 0

/-- The scored rows the builder synthesizes from documents V and T. -/
def rowsC8 : List Row := scoredRows (allExamples [("V", pvC8), ("T", ptC8)])

/-- The instruction-Q&A row of document T, scored 80: rebalancing moves it
into the final test slice. -/
def tQaRow : Row :=
  { ex :=
      { instruction := "What does the Guide section say about the core policy?"
        input := ""
        output := guideText
        taskType := "instruction_qa"
        source := { docId := "T", sectionTitle := "Guide", chunkIndex := 0 }
        expectedRefusal := false }
    score := 80 }

set_option maxRecDepth 100000 in
/-- C8 counterexample: in this build the final test slice holds exactly one
item scoring 80 (moved there from train by the rebalancing step), yet the
gold subset — computed from the pre-rebalancing hash buckets at line 100 of
dataset.py — does not contain it, contradicting the claim that gold holds
every final validation/test item scoring at least 80. -/
theorem gold_misses_rebalanced_test_item_cex :
    (finalSlices hC8 rowsC8).2.2 = [tQaRow] ∧ 80 ≤ tQaRow.score ∧
    tQaRow ∉ goldRowsOf hC8 rowsC8 := by decide

/-- C8 (amended): the primary gold selection uses each item's hash bucket as
computed before the rebalancing of step 4 — gold is exactly the items
scoring at least 80 whose original bucket is val or test; only when that
accumulation is empty does the fallback take the first
`max 1 (min 10 count)` items scoring at least 75 from the rebalanced
val ++ test ++ train concatenation (hence at most 10, all scoring at least
75, and non-empty whenever any such candidate exists). -/
theorem gold_rows_pre_rebalance_characterization :
    ∀ (docHash : String → Nat) (rows : List Row),
      (goldPrimary docHash rows ≠ [] →
        goldRowsOf docHash rows = goldPrimary docHash rows ∧
        ∀ r ∈ goldRowsOf docHash rows,
          80 ≤ r.score ∧ rowBucket docHash r ≠ Bucket.train) ∧
      (goldPrimary docHash rows = [] →
        (∀ r ∈ goldRowsOf docHash rows, 75 ≤ r.score) ∧
        (goldRowsOf docHash rows).length ≤ 10 ∧
        (((finalSlices docHash rows).2.1 ++ (finalSlices docHash rows).2.2 ++
            (finalSlices docHash rows).1).filter (fun r => 75 ≤ r.score) ≠ [] →
          goldRowsOf docHash rows ≠ [])) := by
  intro docHash rows
  constructor
  · intro hne
    have hgold : goldRowsOf docHash rows = goldPrimary docHash rows := by
      unfold goldRowsOf
      rw [if_neg (by simpa [List.isEmpty_iff] using hne)]
    refine ⟨hgold, ?_⟩
    intro r hr
    rw [hgold] at hr
    unfold goldPrimary at hr
    have hr2 := List.of_mem_filter hr
    simp only [Bool.and_eq_true, Bool.or_eq_true, decide_eq_true_eq] at hr2
    refine ⟨hr2.1, ?_⟩
    rcases hr2.2 with h | h <;> simp [h]
  · intro hnil
    have hgold : goldRowsOf docHash rows =
        (((finalSlices docHash rows).2.1 ++ (finalSlices docHash rows).2.2 ++
          (finalSlices docHash rows).1).filter fun r => 75 ≤ r.score).take
          (max 1 (min 10 (((finalSlices docHash rows).2.1 ++
            (finalSlices docHash rows).2.2 ++
            (finalSlices docHash rows).1).filter fun r => 75 ≤ r.score).length)) := by
      unfold goldRowsOf
      rw [if_pos (by simpa [List.isEmpty_iff] using hnil)]
    refine ⟨?_, ?_, ?_⟩
    · intro r hr
      rw [hgold] at hr
      have hr2 := List.of_mem_filter (List.mem_of_mem_take hr)
      simpa using hr2
    · rw [hgold]
      have h1 := List.length_take_le
        (max 1 (min 10 (((finalSlices docHash rows).2.1 ++
          (finalSlices docHash rows).2.2 ++
          (finalSlices docHash rows).1).filter fun r => 75 ≤ r.score).length))
        (((finalSlices docHash rows).2.1 ++ (finalSlices docHash rows).2.2 ++
          (finalSlices docHash rows).1).filter fun r => 75 ≤ r.score)
      omega
    · intro hcand
      rw [hgold]
      intro htake
      rcases List.take_eq_nil_iff.mp htake with h | h
      · omega
      · exact hcand h

/-- Witness for the amended C8: in the counterexample build the primary
accumulation is non-empty, so gold equals it exactly. -/
theorem gold_rows_pre_rebalance_characterization_witness :
    goldRowsOf hC8 rowsC8 = goldPrimary hC8 rowsC8 := by
  have h := (gold_rows_pre_rebalance_characterization hC8 rowsC8).1 (by decide)
  exact h.1

/-! ## C4 -/

/-- C4: over a non-empty gold set the go/no-go verdict holds exactly when
exact-match ≥ 0.6, semantic similarity ≥ 0.72, unsupported-claim rate
≤ 0.12, refusal recall ≥ 0.8, and either no prior report exists or the
regression delta is ≥ −0.05; in particular the verdict is false whenever the
unsupported-claim rate exceeds 0.12 regardless of the other metrics. -/
theorem evaluation_go_no_go_formula :
    ∀ (rows : List EvalRow) (prev : Option ℚ), rows ≠ [] →
      (goNoGo rows prev = true ↔
        ((6 : ℚ) / 10 ≤ exactMatchRate rows ∧
         (72 : ℚ) / 100 ≤ semanticSimilarityOf rows ∧
         unsupportedClaimRate rows ≤ (12 : ℚ) / 100 ∧
         (8 : ℚ) / 10 ≤ refusalRecallOf rows ∧
         (prev = none ∨
           ∃ q : ℚ, prev = some q ∧
             -(5 : ℚ) / 100 ≤ semanticSimilarityOf rows - q))) ∧
      ((12 : ℚ) / 100 < unsupportedClaimRate rows → goNoGo rows prev = false) := by
  intro rows prev hne
  constructor
  · cases prev with
    | none =>
      simp [goNoGo, regressionDelta, Bool.and_eq_true, decide_eq_true_eq, and_assoc]
    | some q =>
      simp [goNoGo, regressionDelta, Bool.and_eq_true, decide_eq_true_eq, and_assoc]
  · intro hur
    have hdec : decide (unsupportedClaimRate rows ≤ (12 : ℚ) / 100) = false := by
      simp only [decide_eq_false_iff_not, not_le]
      exact hur
    simp [goNoGo, hdec]

/-- Evaluation row used by the C4 witness. -/
def witnessEvalRow : EvalRow :=
  { exact := true, semantic := 1, expectedRefusal := true, predictedRefusal := true,
    unsupported := false }

/-- Witness for C4 at a concrete input: a single perfect row with no prior
report passes the gate. -/
theorem evaluation_go_no_go_formula_witness :
    goNoGo [witnessEvalRow] none = true := by
  apply ((evaluation_go_no_go_formula [witnessEvalRow] none (by simp)).1).mpr
  refine ⟨?_, ?_, ?_, ?_, Or.inl rfl⟩ <;>
    · simp [exactMatchRate, semanticSimilarityOf, unsupportedClaimRate, refusalRecallOf,
        refusalTp, refusalFn, witnessEvalRow]
      norm_num

/-! ## C2 -/

theorem failRun_spec (r : RunRec) (m : String) :
    (failRun r m).state = RunState.FAILED ∧ (failRun r m).errorMessage = some m := by
  unfold failRun transitionRun
  split_ifs with h1 h2 <;> simp_all

/-- C2: for a claimed run, an exception raised at any stage of the drive
sequence — modelled as `processBody` ending with an error message `m` on the
partially-updated run `r1` — is caught at the top level of `_process_run`:
the run ends in state FAILED with `m` recorded as its error message, even
when FAILED is absent from the current state's allowed-transition set
(`_fail` overrides the table), and `processRun` returns the run instead of
re-raising. -/
theorem process_run_catches_failures :
    ∀ (o : StageOutcomes) (aip : Bool) (r0 r1 : RunRec) (m : String),
      processBody o aip r0 = (r1, some m) →
      processRun o true aip r0 = failRun r1 m ∧
      (processRun o true aip r0).state = RunState.FAILED ∧
      (processRun o true aip r0).errorMessage = some m := by
  intro o aip r0 r1 m h
  have hrun : processRun o true aip r0 = failRun r1 m := by
    unfold processRun
    rw [h]
    simp
  exact ⟨hrun, by rw [hrun]; exact (failRun_spec r1 m).1,
    by rw [hrun]; exact (failRun_spec r1 m).2⟩

/-- Stage outcomes where preflight raises, for the C2 witness. -/
def witnessOutcomes : StageOutcomes :=
  { preflight := .error "boom", staging := .ok (), training := .ok ("c", "a"),
    evaluating := .ok 0, packaging := .ok "p" }

/-- A freshly claimed run record, for the C2 witness. -/
def witnessRun : RunRec :=
  { state := RunState.PREFLIGHT, progress := 0, stateMessage := "Picked by worker",
    errorMessage := none, checkpointPath := none, adapterPath := none,
    evalReportId := none, packagePath := none }

/-- Witness for C2 at a concrete input: a preflight failure with message
"boom" leaves the concrete claimed run FAILED with that message. -/
theorem process_run_catches_failures_witness :
    (processRun witnessOutcomes true true witnessRun).state = RunState.FAILED ∧
    (processRun witnessOutcomes true true witnessRun).errorMessage = some "boom" :=
  (process_run_catches_failures witnessOutcomes true witnessRun
    { witnessRun with progress := (1 : ℚ) / 10 } "boom" rfl).2

end LoraPipeline
